import Mathlib

/-!
Verification of the design-patterns-javascript repository.

The repository consists of three independent illustrative scripts:
* a Liskov-substitution example (`Rectangle`, `Square`, `stretch`),
* a single-responsibility example (`Journal`, `PersistenceManager`),
* an open/closed example (`Product`, `ProductFilter`, specifications, `Filter2`).

We give a shallow embedding of each script.  JavaScript numbers that the
scripts use are integers throughout, but a field can also be `undefined`
(`new Square()` with no argument leaves both fields `undefined`), so a
numeric field is modelled as `Option Int`, with `none` standing for
`undefined` and for the `NaN` that arithmetic on `undefined` produces.
-/

/-- JavaScript multiplication on possibly-undefined numbers:
`undefined * x` is `NaN`, modelled as `none`. -/
def jmul : Option Int → Option Int → Option Int
  | some a, some b => some (a * b)
  | _, _ => none

/-- JavaScript number-to-string conversion for the values the scripts use
(integers, or `undefined`). -/
def jnumToString : Option Int → String
  | some n => toString n
  | none => "undefined"

/-- The mutable state of a `Rectangle` (and of a `Square`, which adds no
fields of its own): the `width` and `height` fields. -/
structure Rect where
  width : Option Int
  height : Option Int
  deriving Repr, DecidableEq

/-- `new Rectangle(width, height)`: `this.width = width; this.height = height`. -/
def Rectangle.new (width height : Option Int) : Rect :=
  { width := width, height := height }

/-- The `area` getter: `this.width * this.height`. -/
def Rect.area (r : Rect) : Option Int :=
  jmul r.width r.height

/-- `toString()`: the template literal `` `${this.width}x${this.height}` ``. -/
def Rect.toStr (r : Rect) : String :=
  jnumToString r.width ++ "x" ++ jnumToString r.height

/-- `new Square(size)`: `super(size, size)`.  `new Square()` is
`Square.new none` (the missing argument is `undefined`). -/
def Square.new (size : Option Int) : Rect :=
  Rectangle.new size size

/-- `Rectangle.prototype.setWidth = function(value) { this.width = value; }`. -/
def Rectangle.setWidth (r : Rect) (value : Option Int) : Rect :=
  { r with width := value }

/-- `Rectangle.prototype.setHeight = function(value) { this.height = value; }`. -/
def Rectangle.setHeight (r : Rect) (value : Option Int) : Rect :=
  { r with height := value }

/-- `Square.prototype.setWidth = Square.prototype.setHeight = function (value)
{ this.width = this.height = value; }` — one shared function assigning both
fields. -/
def Square.setWidth (r : Rect) (value : Option Int) : Rect :=
  { r with width := value, height := value }

/-- The same shared function, bound to the `setHeight` prototype slot. -/
def Square.setHeight : Rect → Option Int → Rect :=
  Square.setWidth

/-- `function stretch(rect)`: dynamic dispatch on `rect`'s setters is made
explicit by passing the `setWidth`/`setHeight` methods that JavaScript
would look up on the receiver's prototype chain.  The body first calls
`rect.setWidth(rect.width * 2)`, then `rect.setHeight(rect.height * 2)`,
where `rect.height` is read *after* the first setter has run. -/
def stretch (setW setH : Rect → Option Int → Rect) (rect : Rect) : Rect :=
  let rect1 := setW rect (jmul rect.width (some 2))
  setH rect1 (jmul rect1.height (some 2))

/-- `stretch` applied to a `Square` (the setters resolve to the shared
square setter). -/
def stretchSquare (rect : Rect) : Rect :=
  stretch Square.setWidth Square.setHeight rect

/-- `stretch` applied to a plain `Rectangle`. -/
def stretchRectangle (rect : Rect) : Rect :=
  stretch Rectangle.setWidth Rectangle.setHeight rect

/-- C1: for every Square of numeric side `s`, after `stretch(sq)` the actual
area is `16 * s^2`, while the expected scaled area `4 * originalArea` is
`4 * s^2`. -/
theorem square_stretch_area_is_16_s_sq (s : Int) :
    (stretchSquare (Square.new (some s))).area = some (16 * s ^ 2) ∧
    jmul (some 4) (Square.new (some s)).area = some (4 * s ^ 2) := by
  constructor
  · simp only [stretchSquare, stretch, Square.new, Rectangle.new, Square.setWidth,
      Square.setHeight, Rect.area, jmul]
    ring_nf
  · simp only [Square.new, Rectangle.new, Rect.area, jmul]
    ring_nf

/-- C2: the rectangle constructed with width 10 and height 20 prints
`"10x20"`, and in general a rectangle with integer width `w` and height `h`
prints the decimal of `w`, then `"x"`, then the decimal of `h`. -/
theorem rectangle_toString_10x20 :
    (Rectangle.new (some 10) (some 20)).toStr = "10x20" ∧
    ∀ w h : Int,
      (Rectangle.new (some w) (some h)).toStr = toString w ++ "x" ++ toString h := by
  exact ⟨by decide, fun w h => rfl⟩

/-- C3: `stretch` on a plain rectangle of numeric width `w` and height `h`
doubles the width, doubles the height, and scales the area by exactly 4, so
the actual area equals the expected area `4 * originalArea`. -/
theorem rectangle_stretch_scales_by_4 (w h : Int) :
    (stretchRectangle (Rectangle.new (some w) (some h))).width = some (2 * w) ∧
    (stretchRectangle (Rectangle.new (some w) (some h))).height = some (2 * h) ∧
    (stretchRectangle (Rectangle.new (some w) (some h))).area = some (4 * (w * h)) ∧
    jmul (some 4) (Rectangle.new (some w) (some h)).area =
      (stretchRectangle (Rectangle.new (some w) (some h))).area := by
  refine ⟨?_, ?_, ?_, ?_⟩ <;>
    simp only [stretchRectangle, stretch, Rectangle.new, Rectangle.setWidth,
      Rectangle.setHeight, Rect.area, jmul] <;>
    ring_nf

/-- C10: the shared square setter restores the square invariant from any
prior state, including states with unequal fields or `undefined` fields:
after `setWidth(v)` or `setHeight(v)` both fields equal `v`, the fields are
equal, and the area is `v * v`. -/
theorem square_setter_restores_invariant (r : Rect) (v : Int) :
    (Square.setWidth r (some v)).width = some v ∧
    (Square.setWidth r (some v)).height = some v ∧
    (Square.setWidth r (some v)).width = (Square.setWidth r (some v)).height ∧
    (Square.setWidth r (some v)).area = some (v * v) ∧
    Square.setHeight r (some v) = Square.setWidth r (some v) := by
  refine ⟨rfl, rfl, rfl, ?_, rfl⟩
  simp [Square.setWidth, Rect.area, jmul]

/-!
Embedding of the single-responsibility example: `Journal` holds a `count`
and an `entries` object whose keys are the positive integers handed out by
`addEntry`.  A JavaScript object with integer-like keys iterates its
properties in ascending numeric key order, so `entries` is modelled as an
association list kept sorted by key. -/

/-- JavaScript property assignment `obj[k] = v` on an object with
integer-like keys: replace the value if the key is present, otherwise
insert the key at its (ascending) position. -/
def objSet : List (Nat × String) → Nat → String → List (Nat × String)
  | [], k, v => [(k, v)]
  | (k', v') :: rest, k, v =>
    if k < k' then (k, v) :: (k', v') :: rest
    else if k = k' then (k, v) :: rest
    else (k', v') :: objSet rest k v

/-- JavaScript `delete obj[k]`: remove the property with key `k`, if any. -/
def objDelete (m : List (Nat × String)) (k : Nat) : List (Nat × String) :=
  m.filter (fun p => p.1 != k)

/-- The state of a `Journal`: `this.count = 0; this.entries = {}` in the
constructor. -/
structure Journal where
  count : Nat
  entries : List (Nat × String)
  deriving Repr, DecidableEq

/-- `new Journal()`. -/
def Journal.new : Journal :=
  { count := 0, entries := [] }

/-- `addEntry(text)`: `let c = ++this.count; let entry = `${c}: ${text}`;
this.entries[c] = entry; return c;`.  Returns the updated journal together
with the returned index. -/
def Journal.addEntry (j : Journal) (text : String) : Journal × Nat :=
  let c := j.count + 1
  let entry := toString c ++ ": " ++ text
  ({ count := c, entries := objSet j.entries c entry }, c)

/-- `removeEntry(index)`: `delete this.entries[index];` — `count` is not
changed. -/
def Journal.removeEntry (j : Journal) (index : Nat) : Journal :=
  { j with entries := objDelete j.entries index }

/-- `toString()`: `Object.values(this.entries).join('\n')`. -/
def Journal.toStr (j : Journal) : String :=
  String.intercalate "\n" (j.entries.map Prod.snd)

/-- Driver: perform a sequence of `addEntry` calls, keeping the journal. -/
def Journal.addAll (j : Journal) : List String → Journal
  | [] => j
  | t :: ts => Journal.addAll (j.addEntry t).1 ts

/-- Driver: the values returned by a sequence of `addEntry` calls. -/
def Journal.addAllRets (j : Journal) : List String → List Nat
  | [] => []
  | t :: ts => (j.addEntry t).2 :: Journal.addAllRets (j.addEntry t).1 ts

/-- The expected contents of `entries` after the texts `ts` have been added
to a journal that had already handed out the indices `1, …, c`: the k-th
text (0-based) is stored under key `c + k + 1` as `"<key>: <text>"`. -/
def numberedFrom (c : Nat) : List String → List (Nat × String)
  | [] => []
  | t :: ts => (c + 1, toString (c + 1) ++ ": " ++ t) :: numberedFrom (c + 1) ts

/-- Key-range invariant of a journal: every key in `entries` is a positive
integer no greater than `count`. -/
def Journal.Inv (j : Journal) : Prop :=
  ∀ p ∈ j.entries, 1 ≤ p.1 ∧ p.1 ≤ j.count

theorem objSet_append (l : List (Nat × String)) (k : Nat) (v : String)
    (h : ∀ p ∈ l, p.1 < k) : objSet l k v = l ++ [(k, v)] := by
  induction l with
  | nil => rfl
  | cons q rest ih =>
    have hq : q.1 < k := h q (by simp)
    obtain ⟨k', v'⟩ := q
    simp only [objSet]
    rw [if_neg (by omega), if_neg (by omega)]
    simp only [List.cons_append, List.cons.injEq, true_and]
    exact ih (fun p hp => h p (by simp [hp]))

theorem addEntry_entries (j : Journal) (t : String) (h : Journal.Inv j) :
    (j.addEntry t).1.entries =
      j.entries ++ [(j.count + 1, toString (j.count + 1) ++ ": " ++ t)] := by
  simp only [Journal.addEntry]
  exact objSet_append _ _ _ (fun p hp => by have := (h p hp).2; omega)

theorem inv_addEntry (j : Journal) (t : String) (h : Journal.Inv j) :
    Journal.Inv (j.addEntry t).1 := by
  intro p hp
  rw [addEntry_entries j t h] at hp
  have hc : (j.addEntry t).1.count = j.count + 1 := rfl
  rw [hc]
  rcases List.mem_append.mp hp with hmem | hmem
  · obtain ⟨h1, h2⟩ := h p hmem
    omega
  · simp only [List.mem_singleton] at hmem
    subst hmem
    exact ⟨Nat.le_add_left 1 j.count, le_refl _⟩

theorem inv_removeEntry (j : Journal) (i : Nat) (h : Journal.Inv j) :
    Journal.Inv (j.removeEntry i) := by
  intro p hp
  exact h p (List.mem_of_mem_filter hp)

theorem addAll_spec (texts : List String) :
    ∀ j : Journal, Journal.Inv j →
      (j.addAll texts).count = j.count + texts.length ∧
      (j.addAll texts).entries = j.entries ++ numberedFrom j.count texts := by
  induction texts with
  | nil => intro j _; simp [Journal.addAll, numberedFrom]
  | cons t ts ih =>
    intro j hj
    have hj' : Journal.Inv (j.addEntry t).1 := inv_addEntry j t hj
    have hc : (j.addEntry t).1.count = j.count + 1 := rfl
    obtain ⟨ihc, ihe⟩ := ih (j.addEntry t).1 hj'
    constructor
    · show (Journal.addAll (j.addEntry t).1 ts).count = _
      rw [ihc, hc]
      simp only [List.length_cons]
      omega
    · show (Journal.addAll (j.addEntry t).1 ts).entries = _
      rw [ihe, addEntry_entries j t hj, hc]
      simp [numberedFrom]

theorem addAllRets_spec (texts : List String) :
    ∀ j : Journal, Journal.addAllRets j texts = List.range' (j.count + 1) texts.length := by
  induction texts with
  | nil => intro j; rfl
  | cons t ts ih =>
    intro j
    show (j.addEntry t).2 :: Journal.addAllRets (j.addEntry t).1 ts = _
    rw [ih (j.addEntry t).1]
    have h2 : (j.addEntry t).2 = j.count + 1 := rfl
    have hc : (j.addEntry t).1.count = j.count + 1 := rfl
    rw [h2, hc]
    simp only [List.length_cons]
    rw [List.range'_succ]

/-- C4: starting from a fresh journal, the n-th `addEntry(text)` call
returns n and stores the string `"n: text"` under key n, so after adding
the list `texts` the journal's count is the number of texts, the returned
indices are `1, …, n`, the entries are exactly the numbered texts, and
`toString()` joins the numbered entry strings with newlines. -/
theorem journal_entries_are_numbered (texts : List String) :
    (Journal.new.addAll texts).count = texts.length ∧
    Journal.addAllRets Journal.new texts = List.range' 1 texts.length ∧
    (Journal.new.addAll texts).entries = numberedFrom 0 texts ∧
    (Journal.new.addAll texts).toStr =
      String.intercalate "\n" ((numberedFrom 0 texts).map Prod.snd) := by
  have hinv : Journal.Inv Journal.new := by intro p hp; simp [Journal.new] at hp
  obtain ⟨hc, he⟩ := addAll_spec texts Journal.new hinv
  have he' : (Journal.new.addAll texts).entries = numberedFrom 0 texts := by
    rw [he]; rfl
  refine ⟨?_, ?_, he', ?_⟩
  · rw [hc]; simp [Journal.new]
  · rw [addAllRets_spec texts Journal.new]; rfl
  · simp only [Journal.toStr]
    rw [he']

/-- An operation on a journal: one `addEntry` or one `removeEntry` call. -/
inductive JOp where
  | add (text : String)
  | remove (index : Nat)
  deriving Repr, DecidableEq

/-- Apply one operation to a journal. -/
def Journal.apply (j : Journal) : JOp → Journal
  | JOp.add t => (j.addEntry t).1
  | JOp.remove i => j.removeEntry i

/-- Run a sequence of operations on a journal. -/
def Journal.run (j : Journal) (ops : List JOp) : Journal :=
  ops.foldl Journal.apply j

theorem inv_apply (j : Journal) (op : JOp) (h : Journal.Inv j) :
    Journal.Inv (j.apply op) := by
  cases op with
  | add t => exact inv_addEntry j t h
  | remove i => exact inv_removeEntry j i h

theorem inv_run (ops : List JOp) :
    ∀ j : Journal, Journal.Inv j → Journal.Inv (j.run ops) := by
  induction ops with
  | nil => intro j h; exact h
  | cons op rest ih =>
    intro j h
    exact ih (j.apply op) (inv_apply j op h)

theorem inv_journal_new : Journal.Inv Journal.new := by
  intro p hp
  simp [Journal.new] at hp

/-- C9: journal key freshness.  `count` never decreases under any operation;
every journal reachable from `new Journal()` has only keys that are positive
and at most `count`; on such a journal `addEntry` returns a key that is not
already present (so it never overwrites an entry); and `removeEntry(i)` for
a key `i` not present leaves the journal (entries and count) unchanged. -/
theorem journal_key_freshness (ops : List JOp) :
    (∀ (j' : Journal) (op : JOp), j'.count ≤ (j'.apply op).count) ∧
    Journal.Inv (Journal.new.run ops) ∧
    (∀ (t : String) (p : Nat × String), p ∈ (Journal.new.run ops).entries →
      p.1 ≠ ((Journal.new.run ops).addEntry t).2) ∧
    (∀ i : Nat, (∀ p ∈ (Journal.new.run ops).entries, p.1 ≠ i) →
      (Journal.new.run ops).removeEntry i = Journal.new.run ops) := by
  have hinv : Journal.Inv (Journal.new.run ops) := inv_run ops Journal.new inv_journal_new
  refine ⟨?_, hinv, ?_, ?_⟩
  · intro j' op
    cases op with
    | add t => exact Nat.le_succ j'.count
    | remove i => exact le_refl _
  · intro t p hp
    have hle : p.1 ≤ (Journal.new.run ops).count := (hinv p hp).2
    have h2 : ((Journal.new.run ops).addEntry t).2 = (Journal.new.run ops).count + 1 := rfl
    omega
  · intro i hi
    have hfil : (Journal.new.run ops).entries.filter (fun p => p.1 != i) =
        (Journal.new.run ops).entries :=
      List.filter_eq_self.mpr (fun p hp => bne_iff_ne.mpr (hi p hp))
    show { Journal.new.run ops with
        entries := objDelete (Journal.new.run ops).entries i } = Journal.new.run ops
    rw [objDelete, hfil]

/-- Witness for C9: with the single operation `addEntry("a")` performed, the
key 2 is absent, and `removeEntry(2)` leaves the journal unchanged. -/
theorem journal_key_freshness_witness :
    (Journal.new.run [JOp.add "a"]).removeEntry 2 = Journal.new.run [JOp.add "a"] :=
  (journal_key_freshness [JOp.add "a"]).2.2.2 2 (by decide)

/-!
Embedding of the persistence side of the single-responsibility script.
`fs.writeFileSync(fileName, data)` synchronously replaces the entire
content of the file at `fileName` with `data`; the effect is recorded as a
`FileWrite` value, and a script's interaction with the file system is the
list of `FileWrite`s it performs, in program order. -/

/-- One whole-file write: the path written to and the full content written. -/
structure FileWrite where
  path : String
  content : String
  deriving Repr, DecidableEq

/-- `PersistenceManager.saveToFile(journal, fileName)`:
`fs.writeFileSync(fileName, journal.toString())`. -/
def PersistenceManager.saveToFile (journal : Journal) (fileName : String) : FileWrite :=
  { path := fileName, content := journal.toStr }

/-- The semantics of one `fs.writeFileSync` call on a file-system state
(a map from path to content): the target file's content is replaced
entirely, independent of what was there before. -/
def applyWrite (fsState : String → Option String) (w : FileWrite) : String → Option String :=
  fun p => if p = w.path then some w.content else fsState p

/-- The journal built by the script's top level: two `addEntry` calls on a
fresh journal. -/
def scriptJournal : Journal :=
  ((Journal.new.addEntry "Today was a great day!").1.addEntry "I made a new friend today").1

/-- `let fileName = './journal.txt';`. -/
def scriptFileName : String := "./journal.txt"

/-- All file-system writes performed by the single-responsibility script,
in program order: exactly the one `saveToFile` call at its top level. -/
def singleResponsibilityWrites : List FileWrite :=
  [PersistenceManager.saveToFile scriptJournal scriptFileName]

/-- The Liskov-substitution script contains no file-system calls. -/
def liskovWrites : List FileWrite := []

/-- The open/closed script contains no file-system calls. -/
def openClosedWrites : List FileWrite := []

/-- C5: the single-responsibility script performs exactly one file write, of
the journal's `toString()` (the joined numbered entries) to the fixed
relative path `./journal.txt`; `saveToFile` always writes exactly
`journal.toString()` to the given path; and no other script writes to the
file system. -/
theorem single_file_write_of_journal_text :
    singleResponsibilityWrites =
      [{ path := "./journal.txt",
         content := "1: Today was a great day!\n2: I made a new friend today" }] ∧
    (∀ (j : Journal) (name : String),
      (PersistenceManager.saveToFile j name).content = j.toStr ∧
      (PersistenceManager.saveToFile j name).path = name) ∧
    liskovWrites = [] ∧ openClosedWrites = [] := by
  refine ⟨by decide, fun j name => ⟨rfl, rfl⟩, rfl, rfl⟩

/-- C6: exactly one write occurs during a run of the single-responsibility
script, and it is a whole-file write: applying it to any prior file-system
state yields the written content at the written path, regardless of any
previous content of the file.  The other scripts perform no writes. -/
theorem exactly_one_whole_file_write :
    singleResponsibilityWrites.length = 1 ∧
    (∀ (fsState : String → Option String) (w : FileWrite),
      applyWrite fsState w w.path = some w.content) ∧
    (∀ (fs1 fs2 : String → Option String) (w : FileWrite),
      applyWrite fs1 w w.path = applyWrite fs2 w w.path) ∧
    liskovWrites.length = 0 ∧ openClosedWrites.length = 0 := by
  refine ⟨rfl, ?_, ?_, rfl, rfl⟩
  · intro fsState w
    simp [applyWrite]
  · intro fs1 fs2 w
    simp [applyWrite]

/-- `saveToFile` when the underlying `fs.writeFileSync` may throw.  The
method body contains no try/catch, so a thrown error propagates unchanged
to the caller; on both paths the journal argument is returned untouched,
since the body never assigns to it. -/
def PersistenceManager.saveToFileRun (journal : Journal) (fileName : String)
    (writeSucceeds : Bool) : Except String FileWrite × Journal :=
  if writeSucceeds then
    (Except.ok { path := fileName, content := journal.toStr }, journal)
  else
    (Except.error "EACCES: permission denied", journal)

/-- C7: there is no error handling around the file write: when the write
fails, the failure propagates to the caller as an error, and the journal
passed in is unchanged (its count and entries are exactly as before the
call); when the write succeeds the journal is also untouched. -/
theorem save_failure_propagates_journal_unchanged (j : Journal) (name : String) :
    (PersistenceManager.saveToFileRun j name false).1 =
      Except.error "EACCES: permission denied" ∧
    (PersistenceManager.saveToFileRun j name false).2 = j ∧
    (PersistenceManager.saveToFileRun j name false).2.count = j.count ∧
    (PersistenceManager.saveToFileRun j name false).2.entries = j.entries ∧
    (PersistenceManager.saveToFileRun j name true).2 = j := by
  exact ⟨rfl, rfl, rfl, rfl, rfl⟩

/-!
Embedding of the open/closed example: products, the ad-hoc `ProductFilter`,
the color/size specifications, and the specification-driven `Filter2`.
Colors and sizes are the strings of the frozen `Color`/`Size` objects. -/

/-- `new Product(name, color, size)`. -/
structure Product where
  name : String
  color : String
  size : String
  deriving Repr, DecidableEq

/-- `ProductFilter.filterByColor(products, color)`:
`products.filter(p => p.color === color)`. -/
def ProductFilter.filterByColor (products : List Product) (color : String) : List Product :=
  products.filter (fun p => p.color == color)

/-- `ProductFilter.filterBySize(products, size)`:
`products.filter(p => p.size === size)`. -/
def ProductFilter.filterBySize (products : List Product) (size : String) : List Product :=
  products.filter (fun p => p.size == size)

/-- `new ColorSpecification(color)`. -/
structure ColorSpecification where
  color : String
  deriving Repr, DecidableEq

/-- `ColorSpecification.isSatisfied(item)`: `item.color === this.color`. -/
def ColorSpecification.isSatisfied (spec : ColorSpecification) (item : Product) : Bool :=
  item.color == spec.color

/-- `new SizeSpecification(size)`. -/
structure SizeSpecification where
  size : String
  deriving Repr, DecidableEq

/-- `SizeSpecification.isSatisfied(item)`: `item.size === this.size`. -/
def SizeSpecification.isSatisfied (spec : SizeSpecification) (item : Product) : Bool :=
  item.size == spec.size

/-- `Filter2.filter(items, spec)`:
`items.filter(item => spec.isSatisfied(item))` — the specification is any
object with an `isSatisfied` method, modelled as a predicate on products. -/
def Filter2.filter (items : List Product) (spec : Product → Bool) : List Product :=
  items.filter (fun item => spec item)

/-- C8: the ad-hoc filter and the specification-driven filter agree: for
every product list and color, `filterByColor` returns exactly
`Filter2.filter` with a `ColorSpecification` of that color, and likewise
`filterBySize` with a `SizeSpecification`. -/
theorem adhoc_and_specification_filters_agree (products : List Product) (c s : String) :
    ProductFilter.filterByColor products c =
      Filter2.filter products (ColorSpecification.mk c).isSatisfied ∧
    ProductFilter.filterBySize products s =
      Filter2.filter products (SizeSpecification.mk s).isSatisfied := by
  exact ⟨rfl, rfl⟩
